import Mathlib

/-!
Shallow embedding of the BusTub buffer pool core:
the LRU replacer (`src/buffer/lru_replacer.cpp`), the single buffer pool
manager instance (`buffer_pool_manager_instance.cpp`) and the parallel
buffer pool manager (`parallel_buffer_pool_manager.cpp`).

Frames are modelled as indices into a total function `Nat → Page`
(the C++ `Page *pages_` array, all accesses in bounds), the page table
as an association list `List (Int × Nat)` (the C++ `unordered_map`),
the free list and the replacer's LRU list as `List Nat`, and the disk
as a total function `Int → List Nat`.
-/

namespace BusTub

/-- Modelled from the spec: `PAGE_SIZE` lives in `config.h`, which is not part
of the sources; the spec fixes pages as fixed-width buffers of `PAGE_SIZE`
octets, conventionally 4096. -/
def PAGE_SIZE : Nat := 4096

/-- Modelled from the spec: the sentinel `INVALID_PAGE_ID` denotes "no page";
the implementation uses `-1`. -/
def INVALID_PAGE_ID : Int := -1

/-- An all-zero page buffer, the result of `memset(.., 0, PAGE_SIZE)` and of
`Page::ResetMemory`. -/
def zeroBuffer : List Nat := List.replicate PAGE_SIZE 0

/-- The frame contents: a byte buffer plus the metadata fields
`page_id_`, `pin_count_`, `is_dirty_` of the C++ `Page` class. -/
structure Page where
  data : List Nat
  page_id : Int
  pin_count : Int
  is_dirty : Bool
deriving DecidableEq

/-- Modelled from the spec: a freshly constructed frame (the `Page` default
constructor zeroes the buffer; the instance constructor then sets
`page_id_ = INVALID_PAGE_ID`, `pin_count_ = 0`, `is_dirty_ = false`). -/
def initPage : Page :=
  { data := zeroBuffer, page_id := INVALID_PAGE_ID, pin_count := 0, is_dirty := false }

/-- Pointwise update of the frame array at frame `f`. -/
def setPage (ps : Nat → Page) (f : Nat) (p : Page) : Nat → Page :=
  fun g => if g = f then p else ps g

/-- `DiskManager::WritePage`: the disk as a map from page id to contents. -/
def diskWrite (d : Int → List Nat) (pid : Int) (buf : List Nat) : Int → List Nat :=
  fun p => if p = pid then buf else d p

/-- Lookup in the page table (`page_table_.find`). -/
def ptLookup (pt : List (Int × Nat)) (pid : Int) : Option Nat :=
  match pt with
  | [] => none
  | kv :: rest => if kv.1 = pid then some kv.2 else ptLookup rest pid

/-- Erasure from the page table (`page_table_.erase(pid)`). -/
def ptErase (pt : List (Int × Nat)) (pid : Int) : List (Int × Nat) :=
  pt.filter (fun kv => kv.1 ≠ pid)

/-- Map-style insertion (`page_table_[pid] = f` overwrites any old binding). -/
def ptInsert (pt : List (Int × Nat)) (pid : Int) (f : Nat) : List (Int × Nat) :=
  (pid, f) :: ptErase pt pid

/-- The set (as a list) of frames bound in the page table. -/
def ptFrames (pt : List (Int × Nat)) : List Nat :=
  pt.map Prod.snd

/-! ## The LRU replacer (`lru_replacer.cpp`)

The doubly linked list `lru_list_` is the authoritative state (front = most
recently unpinned, back = least recently unpinned); `lru_map_` is only its
O(1) index, so membership in the list models membership in the map. -/

structure LRUReplacer where
  lru_list : List Nat
  capacity : Nat
deriving DecidableEq

/-- `LRUReplacer::Victim`: on an empty list report no victim, otherwise pop
and return the back element. -/
def LRUReplacer.victim (r : LRUReplacer) : Option Nat × LRUReplacer :=
  match r.lru_list.getLast? with
  | none => (none, r)
  | some f => (some f, { r with lru_list := r.lru_list.dropLast })

/-- `LRUReplacer::Pin`: remove the frame from the list if present. -/
def LRUReplacer.pin (r : LRUReplacer) (f : Nat) : LRUReplacer :=
  if f ∈ r.lru_list then { r with lru_list := r.lru_list.erase f } else r

/-- `LRUReplacer::Unpin`: no-op when present; otherwise drop the back element
when at capacity, then push the frame at the front. -/
def LRUReplacer.unpin (r : LRUReplacer) (f : Nat) : LRUReplacer :=
  if f ∈ r.lru_list then r
  else
    let l := if r.lru_list.length ≥ r.capacity then r.lru_list.dropLast else r.lru_list
    { r with lru_list := f :: l }

/-- `LRUReplacer::Size`. -/
def LRUReplacer.size (r : LRUReplacer) : Nat := r.lru_list.length

/-! ## The buffer pool manager instance (`buffer_pool_manager_instance.cpp`) -/

structure BPMInstance where
  pool_size : Nat
  num_instances : Nat
  instance_index : Nat
  next_page_id : Int
  pages : Nat → Page
  page_table : List (Int × Nat)
  free_list : List Nat
  replacer : LRUReplacer
  disk : Int → List Nat
  /-- Modelled from the spec: `DeallocatePage`'s body is in the header, not in
  the sources; the spec says it may be a no-op at the disk layer and does not
  reclaim ids, so the calls are recorded in a ghost list. -/
  deallocated : List Int

/-- `BufferPoolManagerInstance::FindPage`: take the front of the free list if
any, else ask the replacer for a victim, write the victim back when dirty and
drop its page-table entry. -/
def BPMInstance.findPage (s : BPMInstance) : Option Nat × BPMInstance :=
  match s.free_list with
  | f :: rest => (some f, { s with free_list := rest })
  | [] =>
    match s.replacer.victim with
    | (none, r') => (none, { s with replacer := r' })
    | (some f, r') =>
      let pg := s.pages f
      let d' := if pg.is_dirty then diskWrite s.disk pg.page_id pg.data else s.disk
      (some f, { s with replacer := r', disk := d',
                        page_table := ptErase s.page_table pg.page_id })

/-- `BufferPoolManagerInstance::AllocatePage`: return `next_page_id_` and bump
it by `num_instances_`. -/
def BPMInstance.allocatePage (s : BPMInstance) : Int × BPMInstance :=
  (s.next_page_id, { s with next_page_id := s.next_page_id + (s.num_instances : Int) })

/-- `BufferPoolManagerInstance::NewPgImp`: find a frame, allocate a page id,
set metadata (`page_id`, `is_dirty = false`, `pin_count_++`), zero the buffer,
insert the page-table entry, pin the frame in the replacer and write the
zeroed page to disk. -/
def BPMInstance.newPage (s : BPMInstance) : Option (Int × Nat) × BPMInstance :=
  match s.findPage with
  | (none, s1) => (none, s1)
  | (some f, s1) =>
    let a := s1.allocatePage
    let pid := a.1
    let s2 := a.2
    let pg := s2.pages f
    let s3 := { s2 with
      pages := setPage s2.pages f
        { data := zeroBuffer, page_id := pid, pin_count := pg.pin_count + 1, is_dirty := false },
      page_table := ptInsert s2.page_table pid f,
      replacer := s2.replacer.pin f }
    (some (pid, f), { s3 with disk := diskWrite s3.disk pid zeroBuffer })

/-- `BufferPoolManagerInstance::FetchPgImp`: when resident, bump the pin count
and pin in the replacer; otherwise find a replacement frame, write it back
when dirty, remap the page table, read the page from disk and set metadata. -/
def BPMInstance.fetchPage (s : BPMInstance) (pid : Int) : Option Nat × BPMInstance :=
  match ptLookup s.page_table pid with
  | some f =>
    let pg := s.pages f
    (some f, { s with
      pages := setPage s.pages f { pg with pin_count := pg.pin_count + 1 },
      replacer := s.replacer.pin f })
  | none =>
    match s.findPage with
    | (none, s1) => (none, s1)
    | (some f, s1) =>
      let pg := s1.pages f
      let d1 := if pg.is_dirty then diskWrite s1.disk pg.page_id pg.data else s1.disk
      (some f, { s1 with
        disk := d1,
        page_table := ptInsert (ptErase s1.page_table pg.page_id) pid f,
        pages := setPage s1.pages f
          { data := d1 pid, page_id := pid, pin_count := pg.pin_count + 1, is_dirty := false },
        replacer := s1.replacer.pin f })

/-- `BufferPoolManagerInstance::UnpinPgImp`: fail when not resident; set the
dirty bit when asked (before the pin-count check, as in the source); fail when
the pin count is already zero; otherwise decrement and, on reaching zero, add
the frame to the replacer. -/
def BPMInstance.unpinPage (s : BPMInstance) (pid : Int) (dirty : Bool) : Bool × BPMInstance :=
  match ptLookup s.page_table pid with
  | none => (false, s)
  | some f =>
    let pg := s.pages f
    let pg1 := if dirty then { pg with is_dirty := true } else pg
    let s1 := if dirty then { s with pages := setPage s.pages f pg1 } else s
    if pg1.pin_count = 0 then (false, s1)
    else
      let pg2 := { pg1 with pin_count := pg1.pin_count - 1 }
      let s2 := { s1 with pages := setPage s1.pages f pg2 }
      if pg2.pin_count = 0 then (true, { s2 with replacer := s2.replacer.unpin f })
      else (true, s2)

/-- `BufferPoolManagerInstance::FlushPgImp`: fail when not resident or when
the id is `INVALID_PAGE_ID`; otherwise write the buffer to disk and clear the
dirty bit. -/
def BPMInstance.flushPage (s : BPMInstance) (pid : Int) : Bool × BPMInstance :=
  match ptLookup s.page_table pid with
  | none => (false, s)
  | some f =>
    if pid = INVALID_PAGE_ID then (false, s)
    else
      let pg := s.pages f
      (true, { s with disk := diskWrite s.disk pid pg.data,
                      pages := setPage s.pages f { pg with is_dirty := false } })

/-- `BufferPoolManagerInstance::DeletePgImp`: succeed when not resident; fail
when pinned; otherwise write back when dirty, call `DeallocatePage`, drop the
page-table entry, reset the frame and append it to the free list.  The
replacer is (incorrectly, per the spec) left untouched. -/
def BPMInstance.deletePage (s : BPMInstance) (pid : Int) : Bool × BPMInstance :=
  match ptLookup s.page_table pid with
  | none => (true, s)
  | some f =>
    let pg := s.pages f
    if 0 < pg.pin_count then (false, s)
    else
      let d1 := if pg.is_dirty then diskWrite s.disk pid pg.data else s.disk
      (true, { s with
        disk := d1,
        deallocated := pid :: s.deallocated,
        page_table := ptErase s.page_table pid,
        pages := setPage s.pages f
          { data := zeroBuffer, page_id := INVALID_PAGE_ID, pin_count := 0, is_dirty := false },
        free_list := s.free_list ++ [f] })

/-- The instance constructor: every frame starts on the free list with reset
metadata, the replacer is empty with capacity `pool_size`, and the page-id
allocator starts at `instance_index`. -/
def initInstance (ps ni ii : Nat) (d0 : Int → List Nat) : BPMInstance :=
  { pool_size := ps, num_instances := ni, instance_index := ii,
    next_page_id := (ii : Int),
    pages := fun _ => initPage,
    page_table := [],
    free_list := List.range ps,
    replacer := { lru_list := [], capacity := ps },
    disk := d0,
    deallocated := [] }

/-- One public operation on an instance. -/
inductive Op where
  | newPage : Op
  | fetchPage : Int → Op
  | unpinPage : Int → Bool → Op
  | flushPage : Int → Op
  | deletePage : Int → Op

/-- The state reached by one public operation. -/
def BPMInstance.applyOp (s : BPMInstance) : Op → BPMInstance
  | Op.newPage => s.newPage.2
  | Op.fetchPage pid => (s.fetchPage pid).2
  | Op.unpinPage pid d => (s.unpinPage pid d).2
  | Op.flushPage pid => (s.flushPage pid).2
  | Op.deletePage pid => (s.deletePage pid).2

/-- The state reached by a sequence of public operations. -/
def runOps (s : BPMInstance) (ops : List Op) : BPMInstance :=
  ops.foldl BPMInstance.applyOp s

/-- A state is reachable when some sequence of public operations produces it
from a fresh instance. -/
def Reachable (ps ni ii : Nat) (d0 : Int → List Nat) (s : BPMInstance) : Prop :=
  ∃ ops : List Op, s = runOps (initInstance ps ni ii d0) ops

/-! ## The parallel buffer pool manager (`parallel_buffer_pool_manager.cpp`) -/

/-- A placeholder instance for out-of-range vector reads (never hit when the
probe index stays below the vector length). -/
def dummyBPM : BPMInstance := initInstance 0 1 0 (fun _ => zeroBuffer)

structure ParallelBPM where
  buffers : List BPMInstance
  last_alloc_index : Nat

/-- The probing loop of `ParallelBufferPoolManager::NewPgImp`: try
`buffers_[i % size]` for `size` successive values of `i`, returning the first
success together with the updated vector. -/
def probeNew : List BPMInstance → Nat → Nat → Option (Nat × Int × Nat) × List BPMInstance
  | bufs, _, 0 => (none, bufs)
  | bufs, i, fuel + 1 =>
    let idx := i % bufs.length
    let r := (bufs.getD idx dummyBPM).newPage
    let bufs' := bufs.set idx r.2
    match r.1 with
    | some pf => (some (idx, pf.1, pf.2), bufs')
    | none => probeNew bufs' (i + 1) fuel

/-- `ParallelBufferPoolManager::NewPgImp`: probe instances round-robin from
the cursor; on success inside the loop the cursor is advanced once and the
function returns, and after a fully failed sweep it is advanced once. -/
def ParallelBPM.newPgImp (p : ParallelBPM) : Option (Int × Nat × Nat) × ParallelBPM :=
  match probeNew p.buffers p.last_alloc_index p.buffers.length with
  | (some r, bufs') =>
    (some (r.2.1, r.1, r.2.2),
     { buffers := bufs', last_alloc_index := (p.last_alloc_index + 1) % p.buffers.length })
  | (none, bufs') =>
    (none,
     { buffers := bufs', last_alloc_index := (p.last_alloc_index + 1) % p.buffers.length })

/-! ## Iterated allocation (for the allocator claims) -/

/-- The instance state after `k` successive `AllocatePage` calls. -/
def allocState (s : BPMInstance) : Nat → BPMInstance
  | 0 => s
  | k + 1 => ((allocState s k).allocatePage).2

/-- The result of the `(k+1)`-st successive `AllocatePage` call. -/
def allocResult (s : BPMInstance) (k : Nat) : Int :=
  ((allocState s k).allocatePage).1

/-- The list of victims produced by `n` successive `Victim` calls. -/
def drainList (r : LRUReplacer) : Nat → List (Option Nat)
  | 0 => []
  | n + 1 =>
    let v := r.victim
    v.1 :: drainList v.2 n

/-! ## Basic lemmas about the page-table and replacer operations -/

theorem ptLookup_insert_self (pt : List (Int × Nat)) (pid : Int) (f : Nat) :
    ptLookup (ptInsert pt pid f) pid = some f := by
  simp [ptInsert, ptLookup]

theorem mem_of_ptLookup {pt : List (Int × Nat)} {pid : Int} {f : Nat}
    (h : ptLookup pt pid = some f) : (pid, f) ∈ pt := by
  induction pt with
  | nil => simp [ptLookup] at h
  | cons kv rest ih =>
    obtain ⟨k, v⟩ := kv
    by_cases hk : k = pid
    · subst hk
      have hvf : v = f := by simpa [ptLookup] using h
      subst hvf
      exact List.mem_cons_self _ _
    · simp only [ptLookup] at h
      rw [if_neg hk] at h
      exact List.mem_cons_of_mem _ (ih h)

theorem mem_ptErase {pt : List (Int × Nat)} {pid : Int} {kv : Int × Nat}
    (h : kv ∈ ptErase pt pid) : kv ∈ pt ∧ kv.1 ≠ pid := by
  have := List.mem_filter.mp h
  refine ⟨this.1, ?_⟩
  have h2 := this.2
  simpa using h2

theorem ptErase_sublist (pt : List (Int × Nat)) (pid : Int) :
    (ptErase pt pid).Sublist pt :=
  List.filter_sublist pt

theorem mem_ptFrames {pt : List (Int × Nat)} {f : Nat} :
    f ∈ ptFrames pt ↔ ∃ k, (k, f) ∈ pt := by
  simp only [ptFrames, List.mem_map]
  constructor
  · rintro ⟨⟨k, g⟩, hmem, rfl⟩
    exact ⟨k, hmem⟩
  · rintro ⟨k, hmem⟩
    exact ⟨(k, f), hmem, rfl⟩

theorem ptFrames_erase_subset {pt : List (Int × Nat)} {pid : Int} {g : Nat}
    (h : g ∈ ptFrames (ptErase pt pid)) : g ∈ ptFrames pt := by
  rcases mem_ptFrames.mp h with ⟨k, hk⟩
  exact mem_ptFrames.mpr ⟨k, (mem_ptErase hk).1⟩

theorem ptFrames_insert (pt : List (Int × Nat)) (pid : Int) (f : Nat) :
    ptFrames (ptInsert pt pid f) = f :: ptFrames (ptErase pt pid) := by
  simp [ptInsert, ptFrames]

/-! replacer lemmas -/

theorem LRUReplacer.pin_capacity (r : LRUReplacer) (f : Nat) :
    (r.pin f).capacity = r.capacity := by
  unfold LRUReplacer.pin
  split <;> rfl

theorem LRUReplacer.unpin_capacity (r : LRUReplacer) (f : Nat) :
    (r.unpin f).capacity = r.capacity := by
  unfold LRUReplacer.unpin
  split <;> rfl

theorem LRUReplacer.mem_pin {r : LRUReplacer} {f x : Nat}
    (hnd : r.lru_list.Nodup) :
    x ∈ (r.pin f).lru_list ↔ x ∈ r.lru_list ∧ x ≠ f := by
  unfold LRUReplacer.pin
  by_cases hf : f ∈ r.lru_list
  · simp only [if_pos hf]
    exact hnd.mem_erase_iff.trans (by tauto)
  · simp only [if_neg hf]
    constructor
    · intro hx
      exact ⟨hx, fun he => hf (he ▸ hx)⟩
    · exact fun hx => hx.1

theorem LRUReplacer.pin_nodup {r : LRUReplacer} (f : Nat)
    (hnd : r.lru_list.Nodup) : (r.pin f).lru_list.Nodup := by
  unfold LRUReplacer.pin
  split
  · exact hnd.erase f
  · exact hnd

theorem LRUReplacer.not_mem_pin_self {r : LRUReplacer} {f : Nat}
    (hnd : r.lru_list.Nodup) : f ∉ (r.pin f).lru_list := by
  intro h
  exact ((LRUReplacer.mem_pin hnd).mp h).2 rfl

theorem LRUReplacer.mem_unpin {r : LRUReplacer} {f x : Nat}
    (h : x ∈ (r.unpin f).lru_list) : x = f ∨ x ∈ r.lru_list := by
  unfold LRUReplacer.unpin at h
  by_cases hf : f ∈ r.lru_list
  · right
    simpa [if_pos hf] using h
  · simp only [if_neg hf] at h
    rcases List.mem_cons.mp h with rfl | hx
    · exact Or.inl rfl
    · right
      by_cases hc : r.lru_list.length ≥ r.capacity
      · exact (List.dropLast_sublist r.lru_list).subset (by simpa [if_pos hc] using hx)
      · simpa [if_neg hc] using hx

theorem LRUReplacer.unpin_nodup {r : LRUReplacer} (f : Nat)
    (hnd : r.lru_list.Nodup) : (r.unpin f).lru_list.Nodup := by
  unfold LRUReplacer.unpin
  by_cases hf : f ∈ r.lru_list
  · simpa [if_pos hf] using hnd
  · simp only [if_neg hf]
    by_cases hc : r.lru_list.length ≥ r.capacity
    · simp only [if_pos hc]
      refine List.nodup_cons.mpr ⟨fun hm => hf ((List.dropLast_sublist r.lru_list).subset hm), ?_⟩
      exact hnd.sublist (List.dropLast_sublist r.lru_list)
    · simp only [if_neg hc]
      exact List.nodup_cons.mpr ⟨hf, hnd⟩

theorem LRUReplacer.victim_fst (r : LRUReplacer) :
    r.victim.1 = r.lru_list.getLast? := by
  unfold LRUReplacer.victim
  rcases List.eq_nil_or_concat r.lru_list with h | ⟨as, a, h⟩ <;> simp [h]

theorem LRUReplacer.victim_snd (r : LRUReplacer) :
    r.victim.2 = { r with lru_list := r.lru_list.dropLast } := by
  obtain ⟨l, c⟩ := r
  unfold LRUReplacer.victim
  rcases List.eq_nil_or_concat l with rfl | ⟨as, a, rfl⟩ <;> simp

/-! ## Characterization of the instance operations, branch by branch -/

theorem findPage_free (s : BPMInstance) (f : Nat) (rest : List Nat)
    (h : s.free_list = f :: rest) :
    s.findPage = (some f, { s with free_list := rest }) := by
  unfold BPMInstance.findPage
  rw [h]
  try exact rfl

theorem findPage_none (s : BPMInstance)
    (h1 : s.free_list = []) (h2 : s.replacer.lru_list = []) :
    s.findPage = (none, s) := by
  unfold BPMInstance.findPage
  rw [h1]
  have hv : s.replacer.victim = (none, s.replacer) := by
    unfold LRUReplacer.victim
    rw [h2]
    rfl
  rw [hv]
  simp
  rw [← h1]

theorem findPage_victim (s : BPMInstance) (as : List Nat) (a : Nat)
    (h1 : s.free_list = []) (h2 : s.replacer.lru_list = as ++ [a]) :
    s.findPage = (some a,
      { s with
          replacer := { lru_list := as, capacity := s.replacer.capacity },
          disk := if (s.pages a).is_dirty then
              diskWrite s.disk (s.pages a).page_id (s.pages a).data
            else s.disk,
          page_table := ptErase s.page_table (s.pages a).page_id }) := by
  unfold BPMInstance.findPage
  rw [h1]
  have hv : s.replacer.victim =
      (some a, { lru_list := as, capacity := s.replacer.capacity }) := by
    unfold LRUReplacer.victim
    rw [h2]
    simp
  rw [hv]
  try exact rfl

theorem newPage_free (s : BPMInstance) (f : Nat) (rest : List Nat)
    (h : s.free_list = f :: rest) :
    s.newPage = (some (s.next_page_id, f),
      { s with
          free_list := rest,
          next_page_id := s.next_page_id + (s.num_instances : Int),
          pages := setPage s.pages f
            { data := zeroBuffer, page_id := s.next_page_id,
              pin_count := (s.pages f).pin_count + 1, is_dirty := false },
          page_table := ptInsert s.page_table s.next_page_id f,
          replacer := s.replacer.pin f,
          disk := diskWrite s.disk s.next_page_id zeroBuffer }) := by
  unfold BPMInstance.newPage
  rw [findPage_free s f rest h]
  try exact rfl

theorem newPage_victim (s : BPMInstance) (as : List Nat) (a : Nat)
    (h1 : s.free_list = []) (h2 : s.replacer.lru_list = as ++ [a]) :
    s.newPage = (some (s.next_page_id, a),
      { s with
          free_list := s.free_list,
          next_page_id := s.next_page_id + (s.num_instances : Int),
          replacer :=
            LRUReplacer.pin { lru_list := as, capacity := s.replacer.capacity } a,
          disk := diskWrite
            (if (s.pages a).is_dirty then
                diskWrite s.disk (s.pages a).page_id (s.pages a).data
              else s.disk)
            s.next_page_id zeroBuffer,
          page_table := ptInsert (ptErase s.page_table (s.pages a).page_id)
            s.next_page_id a,
          pages := setPage s.pages a
            { data := zeroBuffer, page_id := s.next_page_id,
              pin_count := (s.pages a).pin_count + 1, is_dirty := false } }) := by
  unfold BPMInstance.newPage
  rw [findPage_victim s as a h1 h2]
  try exact rfl

theorem newPage_none (s : BPMInstance)
    (h1 : s.free_list = []) (h2 : s.replacer.lru_list = []) :
    s.newPage = (none, s) := by
  unfold BPMInstance.newPage
  rw [findPage_none s h1 h2]
  try exact rfl

theorem fetchPage_resident (s : BPMInstance) (pid : Int) (f : Nat)
    (h : ptLookup s.page_table pid = some f) :
    s.fetchPage pid = (some f,
      { s with
          pages := setPage s.pages f
            { s.pages f with pin_count := (s.pages f).pin_count + 1 },
          replacer := s.replacer.pin f }) := by
  unfold BPMInstance.fetchPage
  rw [h]
  try exact rfl

theorem fetchPage_none (s : BPMInstance) (pid : Int)
    (h : ptLookup s.page_table pid = none)
    (h1 : s.free_list = []) (h2 : s.replacer.lru_list = []) :
    s.fetchPage pid = (none, s) := by
  unfold BPMInstance.fetchPage
  rw [h, findPage_none s h1 h2]
  try exact rfl

theorem fetchPage_miss_free (s : BPMInstance) (pid : Int) (f : Nat)
    (rest : List Nat)
    (h : ptLookup s.page_table pid = none) (hf : s.free_list = f :: rest) :
    s.fetchPage pid = (some f,
      { s with
          free_list := rest,
          disk := if (s.pages f).is_dirty then
              diskWrite s.disk (s.pages f).page_id (s.pages f).data
            else s.disk,
          page_table := ptInsert (ptErase s.page_table (s.pages f).page_id) pid f,
          pages := setPage s.pages f
            { data := (if (s.pages f).is_dirty then
                  diskWrite s.disk (s.pages f).page_id (s.pages f).data
                else s.disk) pid,
              page_id := pid, pin_count := (s.pages f).pin_count + 1,
              is_dirty := false },
          replacer := s.replacer.pin f }) := by
  unfold BPMInstance.fetchPage
  rw [h, findPage_free s f rest hf]
  try exact rfl

theorem fetchPage_miss_victim (s : BPMInstance) (pid : Int)
    (as : List Nat) (a : Nat)
    (h : ptLookup s.page_table pid = none)
    (hf : s.free_list = []) (h2 : s.replacer.lru_list = as ++ [a]) :
    s.fetchPage pid = (some a,
      { s with
          disk := if (s.pages a).is_dirty then
              diskWrite
                (if (s.pages a).is_dirty then
                    diskWrite s.disk (s.pages a).page_id (s.pages a).data
                  else s.disk)
                (s.pages a).page_id (s.pages a).data
            else (if (s.pages a).is_dirty then
                diskWrite s.disk (s.pages a).page_id (s.pages a).data
              else s.disk),
          page_table := ptInsert (ptErase (ptErase s.page_table (s.pages a).page_id)
            (s.pages a).page_id) pid a,
          pages := setPage s.pages a
            { data := (if (s.pages a).is_dirty then
                  diskWrite
                    (if (s.pages a).is_dirty then
                        diskWrite s.disk (s.pages a).page_id (s.pages a).data
                      else s.disk)
                    (s.pages a).page_id (s.pages a).data
                else (if (s.pages a).is_dirty then
                    diskWrite s.disk (s.pages a).page_id (s.pages a).data
                  else s.disk)) pid,
              page_id := pid, pin_count := (s.pages a).pin_count + 1,
              is_dirty := false },
          replacer :=
            LRUReplacer.pin { lru_list := as, capacity := s.replacer.capacity } a }) := by
  unfold BPMInstance.fetchPage
  rw [h, findPage_victim s as a hf h2]
  try exact rfl

theorem unpinPage_none (s : BPMInstance) (pid : Int) (d : Bool)
    (h : ptLookup s.page_table pid = none) :
    s.unpinPage pid d = (false, s) := by
  unfold BPMInstance.unpinPage
  rw [h]
  try exact rfl

theorem unpinPage_zero_false (s : BPMInstance) (pid : Int) (f : Nat)
    (h : ptLookup s.page_table pid = some f)
    (hz : (s.pages f).pin_count = 0) :
    s.unpinPage pid false = (false, s) := by
  simp [BPMInstance.unpinPage, h, hz]

theorem unpinPage_zero_true (s : BPMInstance) (pid : Int) (f : Nat)
    (h : ptLookup s.page_table pid = some f)
    (hz : (s.pages f).pin_count = 0) :
    s.unpinPage pid true = (false,
      { s with pages := setPage s.pages f { s.pages f with is_dirty := true } }) := by
  simp [BPMInstance.unpinPage, h, hz]

theorem unpinPage_dec_pos (s : BPMInstance) (pid : Int) (d : Bool) (f : Nat)
    (h : ptLookup s.page_table pid = some f)
    (hz : (s.pages f).pin_count ≠ 0)
    (ho : (s.pages f).pin_count - 1 ≠ 0) :
    s.unpinPage pid d = (true,
      { s with pages := (setPage s.pages f
          { data := (s.pages f).data, page_id := (s.pages f).page_id,
            pin_count := (s.pages f).pin_count - 1,
            is_dirty := ((s.pages f).is_dirty || d) }) }) := by
  cases d <;>
    simp [BPMInstance.unpinPage, h, hz, ho, setPage, funext_iff] <;>
    intro g <;>
    by_cases hg : g = f <;>
    simp [hg]

theorem unpinPage_dec_zero (s : BPMInstance) (pid : Int) (d : Bool) (f : Nat)
    (h : ptLookup s.page_table pid = some f)
    (hz : (s.pages f).pin_count ≠ 0)
    (ho : (s.pages f).pin_count - 1 = 0) :
    s.unpinPage pid d = (true,
      { s with
          pages := (setPage s.pages f
            { data := (s.pages f).data, page_id := (s.pages f).page_id,
              pin_count := (s.pages f).pin_count - 1,
              is_dirty := ((s.pages f).is_dirty || d) }),
          replacer := s.replacer.unpin f }) := by
  cases d <;>
    simp [BPMInstance.unpinPage, h, hz, ho, setPage, funext_iff] <;>
    intro g <;>
    by_cases hg : g = f <;>
    simp [hg]

theorem flushPage_not_found (s : BPMInstance) (pid : Int)
    (h : ptLookup s.page_table pid = none) :
    s.flushPage pid = (false, s) := by
  unfold BPMInstance.flushPage
  rw [h]
  try exact rfl

theorem flushPage_invalid (s : BPMInstance) (f : Nat)
    (h : ptLookup s.page_table INVALID_PAGE_ID = some f) :
    s.flushPage INVALID_PAGE_ID = (false, s) := by
  simp [BPMInstance.flushPage, h]

theorem flushPage_found (s : BPMInstance) (pid : Int) (f : Nat)
    (h : ptLookup s.page_table pid = some f) (hv : pid ≠ INVALID_PAGE_ID) :
    s.flushPage pid = (true,
      { s with
          disk := diskWrite s.disk pid (s.pages f).data,
          pages := setPage s.pages f { s.pages f with is_dirty := false } }) := by
  simp [BPMInstance.flushPage, h, hv]

theorem deletePage_not_found (s : BPMInstance) (pid : Int)
    (h : ptLookup s.page_table pid = none) :
    s.deletePage pid = (true, s) := by
  unfold BPMInstance.deletePage
  rw [h]
  try exact rfl

theorem deletePage_pinned (s : BPMInstance) (pid : Int) (f : Nat)
    (h : ptLookup s.page_table pid = some f)
    (hp : 0 < (s.pages f).pin_count) :
    s.deletePage pid = (false, s) := by
  simp [BPMInstance.deletePage, h, hp]

theorem deletePage_found (s : BPMInstance) (pid : Int) (f : Nat)
    (h : ptLookup s.page_table pid = some f)
    (hp : ¬ 0 < (s.pages f).pin_count) :
    s.deletePage pid = (true,
      { s with
          disk := if (s.pages f).is_dirty then
              diskWrite s.disk pid (s.pages f).data
            else s.disk,
          deallocated := pid :: s.deallocated,
          page_table := ptErase s.page_table pid,
          pages := setPage s.pages f
            { data := zeroBuffer, page_id := INVALID_PAGE_ID,
              pin_count := 0, is_dirty := false },
          free_list := s.free_list ++ [f] }) := by
  simp [BPMInstance.deletePage, h, hp]

theorem setPage_self (ps : Nat → Page) (f : Nat) (p : Page) :
    setPage ps f p f = p := by
  simp [setPage]

theorem setPage_ne (ps : Nat → Page) (f : Nat) (p : Page) {g : Nat} (hg : g ≠ f) :
    setPage ps f p g = ps g := by
  simp [setPage, hg]

/-! ## The instance invariant

These are the facts about reachable instance states needed to justify the
`NewPage` postconditions: frames on the free list and in the replacer are
unpinned, the free list and the LRU list hold no duplicates, free frames are
not bound in the page table, and every page-table binding agrees with the
frame's own `page_id` field.  (Because of the `DeletePage` defect the code
does NOT maintain `replacer ⊆ resident`; that component is deliberately
absent.) -/

structure Inv (s : BPMInstance) : Prop where
  freePin : ∀ f ∈ s.free_list, (s.pages f).pin_count = 0
  lruPin : ∀ f ∈ s.replacer.lru_list, (s.pages f).pin_count = 0
  lruNodup : s.replacer.lru_list.Nodup
  freeNodup : s.free_list.Nodup
  freeNotPt : ∀ f ∈ s.free_list, f ∉ ptFrames s.page_table
  ptPid : ∀ kv ∈ s.page_table, (s.pages kv.2).page_id = kv.1

theorem inv_init (ps ni ii : Nat) (d0 : Int → List Nat) :
    Inv (initInstance ps ni ii d0) := by
  refine ⟨?_, ?_, ?_, ?_, ?_, ?_⟩ <;>
    simp [initInstance, initPage, List.nodup_range, ptFrames]

theorem inv_newPage (s : BPMInstance) (h : Inv s) : Inv s.newPage.2 := by
  rcases hfl : s.free_list with _ | ⟨f, rest⟩
  · rcases List.eq_nil_or_concat s.replacer.lru_list with hlru | ⟨as, a, hlru⟩
    · rw [newPage_none s hfl hlru]
      exact h
    · rw [List.concat_eq_append] at hlru
      rw [newPage_victim s as a hfl hlru]
      have hnd : (as ++ [a]).Nodup := hlru ▸ h.lruNodup
      have hasnd : as.Nodup := (List.nodup_append.mp hnd).1
      refine ⟨?_, ?_, ?_, ?_, ?_, ?_⟩
      · intro g hg
        simp only at hg
        rw [hfl] at hg
        simp at hg
      · intro g hg
        simp only at hg ⊢
        have hm := (LRUReplacer.mem_pin (r := ⟨as, s.replacer.capacity⟩) hasnd).mp hg
        have hgl : g ∈ s.replacer.lru_list := by
          rw [hlru]
          exact List.mem_append_left _ hm.1
        rw [setPage_ne _ _ _ hm.2]
        exact h.lruPin g hgl
      · exact LRUReplacer.pin_nodup a hasnd
      · exact h.freeNodup
      · intro g hg
        simp only at hg
        rw [hfl] at hg
        simp at hg
      · intro kv hkv
        simp only [ptInsert, List.mem_cons] at hkv
        simp only at hkv ⊢
        rcases hkv with rfl | hkv
        · simp [setPage_self]
        · have h1 := mem_ptErase hkv
          have h2 := mem_ptErase h1.1
          have hne : kv.2 ≠ a := by
            intro he
            have hpp := h.ptPid kv h2.1
            rw [he] at hpp
            exact h2.2 hpp.symm
          rw [setPage_ne _ _ _ hne]
          exact h.ptPid kv h2.1
  · rw [newPage_free s f rest hfl]
    have hfnd : (f :: rest).Nodup := hfl ▸ h.freeNodup
    have hfrest : f ∉ rest := (List.nodup_cons.mp hfnd).1
    have hffree : f ∈ s.free_list := by
      rw [hfl]
      exact List.mem_cons_self f rest
    refine ⟨?_, ?_, ?_, ?_, ?_, ?_⟩
    · intro g hg
      simp only at hg ⊢
      have hgf : g ≠ f := fun he => hfrest (he ▸ hg)
      rw [setPage_ne _ _ _ hgf]
      exact h.freePin g (by rw [hfl]; exact List.mem_cons_of_mem f hg)
    · intro g hg
      simp only at hg ⊢
      have hm := (LRUReplacer.mem_pin h.lruNodup).mp hg
      rw [setPage_ne _ _ _ hm.2]
      exact h.lruPin g hm.1
    · exact LRUReplacer.pin_nodup f h.lruNodup
    · exact (List.nodup_cons.mp hfnd).2
    · intro g hg
      simp only at hg ⊢
      have hgf : g ≠ f := fun he => hfrest (he ▸ hg)
      have hgpt : g ∉ ptFrames s.page_table :=
        h.freeNotPt g (by rw [hfl]; exact List.mem_cons_of_mem f hg)
      rw [ptFrames_insert]
      intro hmem
      rcases List.mem_cons.mp hmem with he | hmem2
      · exact hgf he
      · exact hgpt (ptFrames_erase_subset hmem2)
    · intro kv hkv
      simp only [ptInsert, List.mem_cons] at hkv
      simp only at hkv ⊢
      rcases hkv with rfl | hkv
      · simp [setPage_self]
      · have h1 := mem_ptErase hkv
        have hne : kv.2 ≠ f := by
          intro he
          exact h.freeNotPt f hffree (mem_ptFrames.mpr ⟨kv.1, he ▸ h1.1⟩)
        rw [setPage_ne _ _ _ hne]
        exact h.ptPid kv h1.1

theorem inv_fetchPage (s : BPMInstance) (pid : Int) (h : Inv s) :
    Inv (s.fetchPage pid).2 := by
  rcases hpt : ptLookup s.page_table pid with _ | f
  · rcases hfl : s.free_list with _ | ⟨f, rest⟩
    · rcases List.eq_nil_or_concat s.replacer.lru_list with hlru | ⟨as, a, hlru⟩
      · rw [fetchPage_none s pid hpt hfl hlru]
        exact h
      · rw [List.concat_eq_append] at hlru
        rw [fetchPage_miss_victim s pid as a hpt hfl hlru]
        have hnd : (as ++ [a]).Nodup := hlru ▸ h.lruNodup
        have hasnd : as.Nodup := (List.nodup_append.mp hnd).1
        refine ⟨?_, ?_, ?_, ?_, ?_, ?_⟩
        · intro g hg
          simp only at hg
          rw [hfl] at hg
          simp at hg
        · intro g hg
          simp only at hg ⊢
          have hm := (LRUReplacer.mem_pin (r := ⟨as, s.replacer.capacity⟩) hasnd).mp hg
          have hgl : g ∈ s.replacer.lru_list := by
            rw [hlru]
            exact List.mem_append_left _ hm.1
          rw [setPage_ne _ _ _ hm.2]
          exact h.lruPin g hgl
        · exact LRUReplacer.pin_nodup a hasnd
        · exact h.freeNodup
        · intro g hg
          simp only at hg
          rw [hfl] at hg
          simp at hg
        · intro kv hkv
          simp only [ptInsert, List.mem_cons] at hkv
          simp only at hkv ⊢
          rcases hkv with rfl | hkv
          · simp [setPage_self]
          · have h1 := mem_ptErase hkv
            have h2 := mem_ptErase h1.1
            have h3 := mem_ptErase h2.1
            have hne : kv.2 ≠ a := by
              intro he
              have hpp := h.ptPid kv h3.1
              rw [he] at hpp
              exact h2.2 hpp.symm
            rw [setPage_ne _ _ _ hne]
            exact h.ptPid kv h3.1
    · rw [fetchPage_miss_free s pid f rest hpt hfl]
      have hfnd : (f :: rest).Nodup := hfl ▸ h.freeNodup
      have hfrest : f ∉ rest := (List.nodup_cons.mp hfnd).1
      have hffree : f ∈ s.free_list := by
        rw [hfl]
        exact List.mem_cons_self f rest
      refine ⟨?_, ?_, ?_, ?_, ?_, ?_⟩
      · intro g hg
        simp only at hg ⊢
        have hgf : g ≠ f := fun he => hfrest (he ▸ hg)
        rw [setPage_ne _ _ _ hgf]
        exact h.freePin g (by rw [hfl]; exact List.mem_cons_of_mem f hg)
      · intro g hg
        simp only at hg ⊢
        have hm := (LRUReplacer.mem_pin h.lruNodup).mp hg
        rw [setPage_ne _ _ _ hm.2]
        exact h.lruPin g hm.1
      · exact LRUReplacer.pin_nodup f h.lruNodup
      · exact (List.nodup_cons.mp hfnd).2
      · intro g hg
        simp only at hg ⊢
        have hgf : g ≠ f := fun he => hfrest (he ▸ hg)
        have hgpt : g ∉ ptFrames s.page_table :=
          h.freeNotPt g (by rw [hfl]; exact List.mem_cons_of_mem f hg)
        rw [ptFrames_insert]
        intro hmem
        rcases List.mem_cons.mp hmem with he | hmem2
        · exact hgf he
        · exact hgpt (ptFrames_erase_subset (ptFrames_erase_subset hmem2))
      · intro kv hkv
        simp only [ptInsert, List.mem_cons] at hkv
        simp only at hkv ⊢
        rcases hkv with rfl | hkv
        · simp [setPage_self]
        · have h1 := mem_ptErase hkv
          have h2 := mem_ptErase h1.1
          have hne : kv.2 ≠ f := by
            intro he
            exact h.freeNotPt f hffree (mem_ptFrames.mpr ⟨kv.1, he ▸ h2.1⟩)
          rw [setPage_ne _ _ _ hne]
          exact h.ptPid kv h2.1
  · rw [fetchPage_resident s pid f hpt]
    have hfpt : f ∈ ptFrames s.page_table :=
      mem_ptFrames.mpr ⟨pid, mem_of_ptLookup hpt⟩
    refine ⟨?_, ?_, ?_, ?_, ?_, ?_⟩
    · intro g hg
      simp only at hg ⊢
      have hgf : g ≠ f := by
        intro he
        exact h.freeNotPt g hg (he ▸ hfpt)
      rw [setPage_ne _ _ _ hgf]
      exact h.freePin g hg
    · intro g hg
      simp only at hg ⊢
      have hm := (LRUReplacer.mem_pin h.lruNodup).mp hg
      rw [setPage_ne _ _ _ hm.2]
      exact h.lruPin g hm.1
    · exact LRUReplacer.pin_nodup f h.lruNodup
    · exact h.freeNodup
    · exact h.freeNotPt
    · intro kv hkv
      simp only at hkv ⊢
      by_cases he : kv.2 = f
      · rw [he, setPage_self]
        have hpp := h.ptPid kv hkv
        rw [he] at hpp
        exact hpp
      · rw [setPage_ne _ _ _ he]
        exact h.ptPid kv hkv

theorem inv_unpinPage (s : BPMInstance) (pid : Int) (d : Bool) (h : Inv s) :
    Inv (s.unpinPage pid d).2 := by
  rcases hpt : ptLookup s.page_table pid with _ | f
  · rw [unpinPage_none s pid d hpt]
    exact h
  · by_cases hz : (s.pages f).pin_count = 0
    · cases d
      · rw [unpinPage_zero_false s pid f hpt hz]
        exact h
      · rw [unpinPage_zero_true s pid f hpt hz]
        refine ⟨?_, ?_, h.lruNodup, h.freeNodup, h.freeNotPt, ?_⟩
        · intro g hg
          simp only at hg ⊢
          by_cases he : g = f
          · rw [he, setPage_self]
            exact h.freePin f (he ▸ hg)
          · rw [setPage_ne _ _ _ he]
            exact h.freePin g hg
        · intro g hg
          simp only at hg ⊢
          by_cases he : g = f
          · rw [he, setPage_self]
            exact h.lruPin f (he ▸ hg)
          · rw [setPage_ne _ _ _ he]
            exact h.lruPin g hg
        · intro kv hkv
          simp only at hkv ⊢
          by_cases he : kv.2 = f
          · rw [he, setPage_self]
            have hpp := h.ptPid kv hkv
            rw [he] at hpp
            exact hpp
          · rw [setPage_ne _ _ _ he]
            exact h.ptPid kv hkv
    · by_cases ho : (s.pages f).pin_count - 1 = 0
      · rw [unpinPage_dec_zero s pid d f hpt hz ho]
        refine ⟨?_, ?_, ?_, h.freeNodup, h.freeNotPt, ?_⟩
        · intro g hg
          simp only at hg ⊢
          by_cases he : g = f
          · rw [he, setPage_self]
            exact ho
          · rw [setPage_ne _ _ _ he]
            exact h.freePin g hg
        · intro g hg
          simp only at hg ⊢
          rcases LRUReplacer.mem_unpin hg with rfl | hg2
          · rw [setPage_self]
            exact ho
          · by_cases he : g = f
            · rw [he, setPage_self]
              exact ho
            · rw [setPage_ne _ _ _ he]
              exact h.lruPin g hg2
        · exact LRUReplacer.unpin_nodup f h.lruNodup
        · intro kv hkv
          simp only at hkv ⊢
          by_cases he : kv.2 = f
          · rw [he, setPage_self]
            have hpp := h.ptPid kv hkv
            rw [he] at hpp
            exact hpp
          · rw [setPage_ne _ _ _ he]
            exact h.ptPid kv hkv
      · rw [unpinPage_dec_pos s pid d f hpt hz ho]
        refine ⟨?_, ?_, h.lruNodup, h.freeNodup, h.freeNotPt, ?_⟩
        · intro g hg
          simp only at hg ⊢
          by_cases he : g = f
          · exact absurd (he ▸ h.freePin g hg) hz
          · rw [setPage_ne _ _ _ he]
            exact h.freePin g hg
        · intro g hg
          simp only at hg ⊢
          by_cases he : g = f
          · exact absurd (he ▸ h.lruPin g hg) hz
          · rw [setPage_ne _ _ _ he]
            exact h.lruPin g hg
        · intro kv hkv
          simp only at hkv ⊢
          by_cases he : kv.2 = f
          · rw [he, setPage_self]
            have hpp := h.ptPid kv hkv
            rw [he] at hpp
            exact hpp
          · rw [setPage_ne _ _ _ he]
            exact h.ptPid kv hkv

theorem inv_flushPage (s : BPMInstance) (pid : Int) (h : Inv s) :
    Inv (s.flushPage pid).2 := by
  rcases hpt : ptLookup s.page_table pid with _ | f
  · rw [flushPage_not_found s pid hpt]
    exact h
  · by_cases hv : pid = INVALID_PAGE_ID
    · subst hv
      rw [flushPage_invalid s f hpt]
      exact h
    · rw [flushPage_found s pid f hpt hv]
      refine ⟨?_, ?_, h.lruNodup, h.freeNodup, h.freeNotPt, ?_⟩
      · intro g hg
        simp only at hg ⊢
        by_cases he : g = f
        · rw [he, setPage_self]
          exact h.freePin f (he ▸ hg)
        · rw [setPage_ne _ _ _ he]
          exact h.freePin g hg
      · intro g hg
        simp only at hg ⊢
        by_cases he : g = f
        · rw [he, setPage_self]
          exact h.lruPin f (he ▸ hg)
        · rw [setPage_ne _ _ _ he]
          exact h.lruPin g hg
      · intro kv hkv
        simp only at hkv ⊢
        by_cases he : kv.2 = f
        · rw [he, setPage_self]
          have hpp := h.ptPid kv hkv
          rw [he] at hpp
          exact hpp
        · rw [setPage_ne _ _ _ he]
          exact h.ptPid kv hkv

theorem inv_deletePage (s : BPMInstance) (pid : Int) (h : Inv s) :
    Inv (s.deletePage pid).2 := by
  rcases hpt : ptLookup s.page_table pid with _ | f
  · rw [deletePage_not_found s pid hpt]
    exact h
  · by_cases hp : 0 < (s.pages f).pin_count
    · rw [deletePage_pinned s pid f hpt hp]
      exact h
    · rw [deletePage_found s pid f hpt hp]
      have hfpt : f ∈ ptFrames s.page_table :=
        mem_ptFrames.mpr ⟨pid, mem_of_ptLookup hpt⟩
      have hffree : f ∉ s.free_list := fun hc => h.freeNotPt f hc hfpt
      have hpidf : (s.pages f).page_id = pid :=
        h.ptPid (pid, f) (mem_of_ptLookup hpt)
      refine ⟨?_, ?_, h.lruNodup, ?_, ?_, ?_⟩
      · intro g hg
        simp only at hg ⊢
        by_cases he : g = f
        · rw [he, setPage_self]
        · rw [setPage_ne _ _ _ he]
          rcases List.mem_append.mp hg with hg2 | hg2
          · exact h.freePin g hg2
          · exact absurd (List.mem_singleton.mp hg2) he
      · intro g hg
        simp only at hg ⊢
        by_cases he : g = f
        · rw [he, setPage_self]
        · rw [setPage_ne _ _ _ he]
          exact h.lruPin g hg
      · refine List.nodup_append.mpr ⟨h.freeNodup, List.nodup_singleton f, ?_⟩
        intro x hx hx2
        rw [List.mem_singleton.mp hx2] at hx
        exact hffree hx
      · intro g hg
        simp only at hg ⊢
        intro hmem
        rcases mem_ptFrames.mp hmem with ⟨k, hk⟩
        have h1 := mem_ptErase hk
        rcases List.mem_append.mp hg with hg2 | hg2
        · exact h.freeNotPt g hg2 (mem_ptFrames.mpr ⟨k, h1.1⟩)
        · have hgf : g = f := List.mem_singleton.mp hg2
          subst hgf
          have hpp := h.ptPid (k, g) h1.1
          rw [hpidf] at hpp
          exact h1.2 hpp.symm
      · intro kv hkv
        simp only at hkv ⊢
        have h1 := mem_ptErase hkv
        have hne : kv.2 ≠ f := by
          intro he
          have hpp := h.ptPid kv h1.1
          rw [he, hpidf] at hpp
          exact h1.2 hpp.symm
        rw [setPage_ne _ _ _ hne]
        exact h.ptPid kv h1.1

theorem inv_applyOp (s : BPMInstance) (op : Op) (h : Inv s) :
    Inv (s.applyOp op) := by
  cases op with
  | newPage => exact inv_newPage s h
  | fetchPage pid => exact inv_fetchPage s pid h
  | unpinPage pid d => exact inv_unpinPage s pid d h
  | flushPage pid => exact inv_flushPage s pid h
  | deletePage pid => exact inv_deletePage s pid h

theorem inv_runOps (s : BPMInstance) (ops : List Op) (h : Inv s) :
    Inv (runOps s ops) := by
  induction ops generalizing s with
  | nil => exact h
  | cons op rest ih => exact ih _ (inv_applyOp s op h)

theorem reachable_inv {ps ni ii : Nat} {d0 : Int → List Nat} {s : BPMInstance}
    (h : Reachable ps ni ii d0 s) : Inv s := by
  rcases h with ⟨ops, rfl⟩
  exact inv_runOps _ ops (inv_init ps ni ii d0)

/-! ## Remaining helpers for the claim theorems -/

/-- The all-zero disk used by concrete witnesses. -/
def zeroDisk : Int → List Nat := fun _ => zeroBuffer

theorem ptLookup_erase_self (pt : List (Int × Nat)) (pid : Int) :
    ptLookup (ptErase pt pid) pid = none := by
  induction pt with
  | nil => rfl
  | cons kv rest ih =>
    by_cases hk : kv.1 = pid
    · simpa [ptErase, List.filter_cons, hk] using ih
    · simpa [ptErase, List.filter_cons, hk, ptLookup] using ih

/-! ## Claim C1 -/

/-- Claim C1: refuted by the code.  On a one-frame instance, after
`NewPage; UnpinPage(p0,false); DeletePage(p0)` the deleted frame 0 is still in
the replacer although it is no longer resident (no page-table entry) and sits
on the free list, violating `f ∈ replacer ⇔ f resident ∧ pin_count f = 0` —
`DeletePgImp` never removes the frame from the replacer before appending it to
the free list. -/
theorem claim_C1_delete_leaves_replacer :
    0 ∈ (runOps (initInstance 1 1 0 zeroDisk)
        [Op.newPage, Op.unpinPage 0 false, Op.deletePage 0]).replacer.lru_list ∧
    ptLookup (runOps (initInstance 1 1 0 zeroDisk)
        [Op.newPage, Op.unpinPage 0 false, Op.deletePage 0]).page_table 0 = none ∧
    (runOps (initInstance 1 1 0 zeroDisk)
        [Op.newPage, Op.unpinPage 0 false, Op.deletePage 0]).free_list = [0] := by
  decide

/-! ## Claim C2 -/

/-- Claim C2: every call of the pool's `NewPage` advances the round-robin
cursor `last_alloc_index_` by exactly one modulo the number of instances,
regardless of whether the allocation succeeds, which instance succeeds, or
the full sweep fails: the in-loop advance is followed immediately by
`return`, so the post-loop advance runs only on a failed sweep. -/
theorem claim_C2_cursor_advance (p : ParallelBPM) (h : 0 < p.buffers.length) :
    (p.newPgImp).2.last_alloc_index = (p.last_alloc_index + 1) % p.buffers.length := by
  unfold ParallelBPM.newPgImp
  rcases hp : probeNew p.buffers p.last_alloc_index p.buffers.length with ⟨o, bufs'⟩
  cases o <;> exact rfl

theorem claim_C2_cursor_advance_witness :
    0 < (ParallelBPM.mk [initInstance 1 2 0 zeroDisk, initInstance 1 2 1 zeroDisk]
        0).buffers.length ∧
    ((ParallelBPM.mk [initInstance 1 2 0 zeroDisk, initInstance 1 2 1 zeroDisk]
        0).newPgImp).2.last_alloc_index = (0 + 1) % 2 :=
  ⟨by decide, claim_C2_cursor_advance _ (by decide)⟩

/-! ## Claim C3 -/

/-- Claim C3 counterexample: on a state where page 0 is resident with pin
count 0 and a clean frame, `UnpinPage(0, true)` returns false yet flips the
frame's dirty bit — contradicting the claim that a false return leaves the
instance state (including the dirty bit) unchanged. -/
theorem claim_C3_counterexample :
    ((runOps (initInstance 1 1 0 zeroDisk)
        [Op.newPage, Op.unpinPage 0 false]).unpinPage 0 true).1 = false ∧
    (((runOps (initInstance 1 1 0 zeroDisk)
        [Op.newPage, Op.unpinPage 0 false]).unpinPage 0 true).2.pages 0).is_dirty = true ∧
    ((runOps (initInstance 1 1 0 zeroDisk)
        [Op.newPage, Op.unpinPage 0 false]).pages 0).is_dirty = false := by
  decide

/-- Claim C3 (amended): `UnpinPage` returns false when the page is not
resident (state unchanged) or when its pin count is already zero — but in the
latter case the dirty flag has nonetheless been ORed into the frame's dirty
bit before the pin-count test, and nothing else changes; on a true return it
ORs the flag, decrements the pin count, and adds the frame to the replacer
exactly when the count reaches zero. -/
theorem claim_C3_unpin_spec (s : BPMInstance) (pid : Int) (d : Bool) :
    (ptLookup s.page_table pid = none → s.unpinPage pid d = (false, s)) ∧
    (∀ f, ptLookup s.page_table pid = some f → (s.pages f).pin_count = 0 →
      (s.unpinPage pid d).1 = false ∧
      ((s.unpinPage pid d).2.pages f).is_dirty = ((s.pages f).is_dirty || d) ∧
      ((s.unpinPage pid d).2.pages f).pin_count = (s.pages f).pin_count ∧
      ((s.unpinPage pid d).2.pages f).page_id = (s.pages f).page_id ∧
      ((s.unpinPage pid d).2.pages f).data = (s.pages f).data ∧
      (∀ g, g ≠ f → (s.unpinPage pid d).2.pages g = s.pages g) ∧
      (s.unpinPage pid d).2.page_table = s.page_table ∧
      (s.unpinPage pid d).2.free_list = s.free_list ∧
      (s.unpinPage pid d).2.replacer = s.replacer ∧
      (s.unpinPage pid d).2.disk = s.disk ∧
      (s.unpinPage pid d).2.next_page_id = s.next_page_id) ∧
    (∀ f, ptLookup s.page_table pid = some f → (s.pages f).pin_count ≠ 0 →
      (s.unpinPage pid d).1 = true ∧
      ((s.unpinPage pid d).2.pages f).pin_count = (s.pages f).pin_count - 1 ∧
      ((s.unpinPage pid d).2.pages f).is_dirty = ((s.pages f).is_dirty || d) ∧
      (s.unpinPage pid d).2.replacer =
        (if (s.pages f).pin_count - 1 = 0 then s.replacer.unpin f else s.replacer)) := by
  refine ⟨fun h => unpinPage_none s pid d h, ?_, ?_⟩
  · intro f h hz
    cases d
    · rw [unpinPage_zero_false s pid f h hz]
      simp
    · rw [unpinPage_zero_true s pid f h hz]
      refine ⟨rfl, ?_, ?_, ?_, ?_, ?_, rfl, rfl, rfl, rfl, rfl⟩
      · simp [setPage]
      · simp [setPage]
      · simp [setPage]
      · simp [setPage]
      · intro g hg
        simp [setPage, hg]
  · intro f h hz
    by_cases ho : (s.pages f).pin_count - 1 = 0
    · rw [unpinPage_dec_zero s pid d f h hz ho]
      refine ⟨rfl, by simp [setPage], by simp [setPage], by simp [ho]⟩
    · rw [unpinPage_dec_pos s pid d f h hz ho]
      refine ⟨rfl, by simp [setPage], by simp [setPage], by simp [ho]⟩

theorem claim_C3_unpin_spec_witness :
    ((runOps (initInstance 1 1 0 zeroDisk) [Op.newPage]).unpinPage 0 false).1 = true :=
  ((claim_C3_unpin_spec (runOps (initInstance 1 1 0 zeroDisk) [Op.newPage]) 0
      false).2.2 0 (by decide) (by decide)).1

/-! ## Claim C7 -/

/-- Claim C7: `FlushPage(pid)` returns false exactly when `pid` is
`INVALID_PAGE_ID` or not resident, and then changes nothing; on a true return
it writes the frame's buffer to disk and clears the dirty bit, leaving the
page table, free list, replacer, the frame's `page_id`, `pin_count` and
buffer, and all other frames unchanged. -/
theorem claim_C7_flush_spec (s : BPMInstance) (pid : Int) :
    ((s.flushPage pid).1 = false ↔
      (pid = INVALID_PAGE_ID ∨ ptLookup s.page_table pid = none)) ∧
    ((s.flushPage pid).1 = false → (s.flushPage pid).2 = s) ∧
    (∀ f, ptLookup s.page_table pid = some f → pid ≠ INVALID_PAGE_ID →
      (s.flushPage pid).1 = true ∧
      (s.flushPage pid).2.disk pid = (s.pages f).data ∧
      ((s.flushPage pid).2.pages f).is_dirty = false ∧
      ((s.flushPage pid).2.pages f).page_id = (s.pages f).page_id ∧
      ((s.flushPage pid).2.pages f).pin_count = (s.pages f).pin_count ∧
      ((s.flushPage pid).2.pages f).data = (s.pages f).data ∧
      (∀ g, g ≠ f → (s.flushPage pid).2.pages g = s.pages g) ∧
      (s.flushPage pid).2.page_table = s.page_table ∧
      (s.flushPage pid).2.free_list = s.free_list ∧
      (s.flushPage pid).2.replacer = s.replacer) := by
  rcases hpt : ptLookup s.page_table pid with _ | f
  · rw [flushPage_not_found s pid hpt]
    refine ⟨by simp, fun _ => rfl, ?_⟩
    intro f h
    exact Option.noConfusion h
  · by_cases hv : pid = INVALID_PAGE_ID
    · subst hv
      rw [flushPage_invalid s f hpt]
      refine ⟨by simp, fun _ => rfl, ?_⟩
      intro f2 _ hv2
      exact absurd rfl hv2
    · rw [flushPage_found s pid f hpt hv]
      refine ⟨by simp [hv, hpt], by simp, ?_⟩
      intro f2 hf2 hvv
      have hff : f = f2 := Option.some.inj hf2
      subst hff
      refine ⟨rfl, by simp [diskWrite], ?_, ?_, ?_, ?_, ?_, rfl, rfl, rfl⟩
      · simp [setPage]
      · simp [setPage]
      · simp [setPage]
      · simp [setPage]
      · intro g hg
        simp [setPage, hg]

theorem claim_C7_flush_spec_witness :
    ((runOps (initInstance 1 1 0 zeroDisk) [Op.newPage]).flushPage 0).1 = true :=
  ((claim_C7_flush_spec (runOps (initInstance 1 1 0 zeroDisk) [Op.newPage]) 0).2.2 0
      (by decide) (by decide)).1

/-! ## Claim C8 -/

/-- Claim C8: `DeletePage(pid)` returns true with state unchanged when the
page is not resident; returns false with state unchanged when resident with a
positive pin count; and otherwise writes the frame back when dirty, records
the `DeallocatePage` call, removes the page-table entry, resets the frame's
metadata (buffer zeroed, `page_id = INVALID_PAGE_ID`, `pin_count = 0`,
`is_dirty = false`), appends the frame to the back of the free list, and
returns true. -/
theorem claim_C8_delete_spec (s : BPMInstance) (pid : Int) :
    (ptLookup s.page_table pid = none → s.deletePage pid = (true, s)) ∧
    (∀ f, ptLookup s.page_table pid = some f → 0 < (s.pages f).pin_count →
      s.deletePage pid = (false, s)) ∧
    (∀ f, ptLookup s.page_table pid = some f → ¬ 0 < (s.pages f).pin_count →
      (s.deletePage pid).1 = true ∧
      ((s.pages f).is_dirty = true → (s.deletePage pid).2.disk pid = (s.pages f).data) ∧
      (s.deletePage pid).2.deallocated = pid :: s.deallocated ∧
      ptLookup (s.deletePage pid).2.page_table pid = none ∧
      (s.deletePage pid).2.pages f =
        { data := zeroBuffer, page_id := INVALID_PAGE_ID,
          pin_count := 0, is_dirty := false } ∧
      (s.deletePage pid).2.free_list = s.free_list ++ [f]) := by
  refine ⟨fun h => deletePage_not_found s pid h, ?_, ?_⟩
  · intro f h hp
    exact deletePage_pinned s pid f h hp
  · intro f h hp
    rw [deletePage_found s pid f h hp]
    refine ⟨rfl, ?_, rfl, ?_, ?_, rfl⟩
    · intro hd
      simp [hd, diskWrite]
    · exact ptLookup_erase_self s.page_table pid
    · simp [setPage]

theorem claim_C8_delete_spec_witness :
    ((runOps (initInstance 1 1 0 zeroDisk)
        [Op.newPage, Op.unpinPage 0 false]).deletePage 0).1 = true :=
  ((claim_C8_delete_spec (runOps (initInstance 1 1 0 zeroDisk)
      [Op.newPage, Op.unpinPage 0 false]) 0).2.2 0 (by decide) (by decide)).1

/-! ## Claim C9 -/

/-- Claim C9: when an instance's `NewPage` fails it is atomic — the whole
state is returned unchanged; in particular no page id is consumed
(`next_page_id_` keeps its value) and the page table, free list, replacer and
frame metadata are untouched (the allocator is only invoked after a frame has
been found). -/
theorem claim_C9_newpage_failure_atomic (s : BPMInstance)
    (h : (s.newPage).1 = none) :
    (s.newPage).2 = s ∧ (s.newPage).2.next_page_id = s.next_page_id := by
  rcases hfl : s.free_list with _ | ⟨f, rest⟩
  · rcases List.eq_nil_or_concat s.replacer.lru_list with hlru | ⟨as, a, hlru⟩
    · rw [newPage_none s hfl hlru]
      exact ⟨rfl, rfl⟩
    · rw [List.concat_eq_append] at hlru
      rw [newPage_victim s as a hfl hlru] at h
      cases h
  · rw [newPage_free s f rest hfl] at h
    cases h

theorem claim_C9_newpage_failure_atomic_witness :
    ((initInstance 0 1 0 zeroDisk).newPage.1 = none) ∧
    (initInstance 0 1 0 zeroDisk).newPage.2 = initInstance 0 1 0 zeroDisk :=
  ⟨by decide, (claim_C9_newpage_failure_atomic _ (by decide)).1⟩

/-! ## Claim C10 -/

/-- Claim C10: fetching an already-resident page does no disk I/O (the disk
map and the frame's buffer are untouched) and changes only that frame's pin
count (incremented by one) and the replacer (the frame is removed when
present); the frame's buffer, dirty bit and `page_id`, all other frames, the
page table and the free list are unchanged. -/
theorem claim_C10_fetch_resident (s : BPMInstance) (pid : Int) (f : Nat)
    (h : ptLookup s.page_table pid = some f) :
    (s.fetchPage pid).1 = some f ∧
    (s.fetchPage pid).2.disk = s.disk ∧
    ((s.fetchPage pid).2.pages f).pin_count = (s.pages f).pin_count + 1 ∧
    ((s.fetchPage pid).2.pages f).data = (s.pages f).data ∧
    ((s.fetchPage pid).2.pages f).is_dirty = (s.pages f).is_dirty ∧
    ((s.fetchPage pid).2.pages f).page_id = (s.pages f).page_id ∧
    (∀ g, g ≠ f → (s.fetchPage pid).2.pages g = s.pages g) ∧
    (s.fetchPage pid).2.page_table = s.page_table ∧
    (s.fetchPage pid).2.free_list = s.free_list ∧
    (s.fetchPage pid).2.replacer = s.replacer.pin f ∧
    (s.replacer.lru_list.Nodup → f ∉ (s.fetchPage pid).2.replacer.lru_list) ∧
    (s.fetchPage pid).2.next_page_id = s.next_page_id ∧
    (s.fetchPage pid).2.deallocated = s.deallocated := by
  rw [fetchPage_resident s pid f h]
  refine ⟨rfl, rfl, ?_, ?_, ?_, ?_, ?_, rfl, rfl, rfl, ?_, rfl, rfl⟩
  · simp [setPage]
  · simp [setPage]
  · simp [setPage]
  · simp [setPage]
  · intro g hg
    simp [setPage, hg]
  · intro hnd
    exact LRUReplacer.not_mem_pin_self hnd

theorem claim_C10_fetch_resident_witness :
    ((runOps (initInstance 1 1 0 zeroDisk) [Op.newPage]).fetchPage 0).1 = some 0 :=
  (claim_C10_fetch_resident (runOps (initInstance 1 1 0 zeroDisk) [Op.newPage]) 0 0
      (by decide)).1

/-! ## Claim C4 -/

/-- Claim C4: in any reachable instance state, a successful `NewPage` returns
the freshly allocated id together with a frame whose metadata reads
`page_id = new id`, `pin_count = 1`, `is_dirty = false`, whose buffer is all
zeros; the page table maps the new id to that frame, the frame is not in the
replacer, and the zeroed page has been written to disk; and `NewPage` fails
exactly when the free list is empty and the replacer holds no victim. -/
theorem claim_C4_newpage_spec (ps ni ii : Nat) (d0 : Int → List Nat)
    (s : BPMInstance) (hr : Reachable ps ni ii d0 s) :
    (∀ pid f, (s.newPage).1 = some (pid, f) →
      pid = s.next_page_id ∧
      ((s.newPage).2.pages f).page_id = pid ∧
      ((s.newPage).2.pages f).pin_count = 1 ∧
      ((s.newPage).2.pages f).is_dirty = false ∧
      ((s.newPage).2.pages f).data = zeroBuffer ∧
      ptLookup (s.newPage).2.page_table pid = some f ∧
      f ∉ (s.newPage).2.replacer.lru_list ∧
      (s.newPage).2.disk pid = zeroBuffer) ∧
    ((s.newPage).1 = none ↔ (s.free_list = [] ∧ s.replacer.lru_list = [])) := by
  have hinv := reachable_inv hr
  rcases hfl : s.free_list with _ | ⟨f0, rest⟩
  · rcases List.eq_nil_or_concat s.replacer.lru_list with hlru | ⟨as, a, hlru⟩
    · rw [newPage_none s hfl hlru]
      constructor
      · intro pid f hsome
        exact Option.noConfusion hsome
      · simp [hfl, hlru]
    · rw [List.concat_eq_append] at hlru
      rw [newPage_victim s as a hfl hlru]
      have hnd : (as ++ [a]).Nodup := hlru ▸ hinv.lruNodup
      have hasnd : as.Nodup := (List.nodup_append.mp hnd).1
      have hamem : a ∈ s.replacer.lru_list := by
        rw [hlru]
        exact List.mem_append_right as (List.mem_singleton_self a)
      have hpin0 : (s.pages a).pin_count = 0 := hinv.lruPin a hamem
      constructor
      · intro pid f hsome
        simp only [Option.some.injEq, Prod.mk.injEq] at hsome
        obtain ⟨h1, h2⟩ := hsome
        subst h1
        subst h2
        refine ⟨rfl, ?_, ?_, ?_, ?_, ?_, ?_, ?_⟩
        · simp [setPage]
        · simp [setPage, hpin0]
        · simp [setPage]
        · simp [setPage]
        · exact ptLookup_insert_self _ _ _
        · exact LRUReplacer.not_mem_pin_self hasnd
        · simp [diskWrite]
      · simp [hfl, hlru]
  · rw [newPage_free s f0 rest hfl]
    have hpin0 : (s.pages f0).pin_count = 0 :=
      hinv.freePin f0 (by rw [hfl]; exact List.mem_cons_self _ _)
    constructor
    · intro pid f hsome
      simp only [Option.some.injEq, Prod.mk.injEq] at hsome
      obtain ⟨h1, h2⟩ := hsome
      subst h1
      subst h2
      refine ⟨rfl, ?_, ?_, ?_, ?_, ?_, ?_, ?_⟩
      · simp [setPage]
      · simp [setPage, hpin0]
      · simp [setPage]
      · simp [setPage]
      · exact ptLookup_insert_self _ _ _
      · exact LRUReplacer.not_mem_pin_self hinv.lruNodup
      · simp [diskWrite]
    · simp [hfl]

theorem claim_C4_newpage_spec_witness :
    ((initInstance 1 1 0 zeroDisk).newPage.2.pages 0).pin_count = 1 :=
  ((claim_C4_newpage_spec 1 1 0 zeroDisk (initInstance 1 1 0 zeroDisk)
      ⟨[], rfl⟩).1 0 0 (by decide)).2.2.1

/-! ## Claim C5 -/

theorem allocState_num (s : BPMInstance) (k : Nat) :
    (allocState s k).num_instances = s.num_instances := by
  induction k with
  | zero => rfl
  | succ k ih => simpa [allocState, BPMInstance.allocatePage] using ih

theorem allocState_next (s : BPMInstance) (k : Nat) :
    (allocState s k).next_page_id =
      s.next_page_id + (k : Int) * (s.num_instances : Int) := by
  induction k with
  | zero => simp [allocState]
  | succ k ih =>
    have hni := allocState_num s k
    show ((allocState s k).allocatePage).2.next_page_id = _
    simp only [BPMInstance.allocatePage, ih, hni]
    push_cast
    ring

theorem allocResult_eq (s : BPMInstance) (k : Nat) :
    allocResult s k = s.next_page_id + (k : Int) * (s.num_instances : Int) := by
  show (allocState s k).next_page_id = _
  exact allocState_next s k

/-- Claim C5: within one instance constructed with `(num_instances,
instance_index)`, successive `AllocatePage` results grow by exactly
`num_instances`, every allocated id is congruent to `instance_index` modulo
`num_instances`, and allocation is injective over the instance's lifetime. -/
theorem claim_C5_allocator (ps ni ii : Nat) (d0 : Int → List Nat)
    (hni : 0 < ni) (hii : ii < ni) (k j : Nat) :
    allocResult (initInstance ps ni ii d0) (k + 1) =
      allocResult (initInstance ps ni ii d0) k + (ni : Int) ∧
    allocResult (initInstance ps ni ii d0) k % (ni : Int) = (ii : Int) ∧
    (allocResult (initInstance ps ni ii d0) k =
      allocResult (initInstance ps ni ii d0) j → k = j) := by
  have he : ∀ m : Nat, allocResult (initInstance ps ni ii d0) m =
      (ii : Int) + (m : Int) * (ni : Int) := by
    intro m
    rw [allocResult_eq]
    rfl
  refine ⟨?_, ?_, ?_⟩
  · rw [he, he]
    push_cast
    ring
  · rw [he, mul_comm, Int.add_mul_emod_self_left]
    exact Int.emod_eq_of_lt (by exact_mod_cast Nat.zero_le ii) (by exact_mod_cast hii)
  · rw [he, he]
    intro hkj
    have h1 : (k : Int) * (ni : Int) = (j : Int) * (ni : Int) := by omega
    have h2 : (k : Int) = (j : Int) :=
      mul_right_cancel₀ (by exact_mod_cast hni.ne') h1
    exact_mod_cast h2

theorem claim_C5_allocator_witness :
    allocResult (initInstance 1 2 1 zeroDisk) 3 % (2 : Int) = 1 :=
  (claim_C5_allocator 1 2 1 zeroDisk (by decide) (by decide) 3 0).2.1

/-! ## Claim C6 -/

theorem unpin_foldl (fs : List Nat) : ∀ (l : List Nat) (c : Nat),
    fs.Nodup → (∀ f ∈ fs, f ∉ l) → l.length + fs.length ≤ c →
    fs.foldl LRUReplacer.unpin ⟨l, c⟩ = ⟨fs.reverse ++ l, c⟩ := by
  induction fs with
  | nil =>
    intro l c _ _ _
    simp
  | cons f rest ih =>
    intro l c hnd hdisj hlen
    have hf : f ∉ l := hdisj f (List.mem_cons_self f rest)
    have hlc : ¬ l.length ≥ c := by
      simp only [List.length_cons] at hlen
      omega
    have hstep : LRUReplacer.unpin ⟨l, c⟩ f = ⟨f :: l, c⟩ := by
      simp [LRUReplacer.unpin, hf, hlc]
    rw [List.foldl_cons, hstep]
    have hres := ih (f :: l) c (List.nodup_cons.mp hnd).2
      (by
        intro g hg hmem
        rcases List.mem_cons.mp hmem with he | hgl
        · exact (List.nodup_cons.mp hnd).1 (he ▸ hg)
        · exact hdisj g (List.mem_cons_of_mem f hg) hgl)
      (by
        simp only [List.length_cons] at hlen ⊢
        omega)
    rw [hres]
    simp

theorem drain_list_eq : ∀ (n : Nat) (l : List Nat) (c : Nat), l.length = n →
    drainList ⟨l, c⟩ n = (l.reverse).map some := by
  intro n
  induction n with
  | zero =>
    intro l c hl
    rw [List.length_eq_zero.mp hl]
    simp [drainList]
  | succ n ih =>
    intro l c hl
    rcases List.eq_nil_or_concat l with rfl | ⟨as, a, rfl⟩
    · simp at hl
    · rw [List.concat_eq_append] at hl ⊢
      have hv : (⟨as ++ [a], c⟩ : LRUReplacer).victim = (some a, ⟨as, c⟩) := by
        unfold LRUReplacer.victim
        simp
      have hlen : as.length = n := by
        simp only [List.length_append, List.length_singleton] at hl
        omega
      simp only [drainList, hv]
      rw [ih as c hlen]
      simp

/-- Claim C6: `Victim` reports no victim exactly on the empty list and
otherwise removes and returns the back (least-recently-unpinned) element;
consequently, unpinning distinct valid frames `f1 … fn` into an empty
replacer with no intervening `Pin` and then draining with `n` `Victim` calls
returns `f1 … fn` in that same order. -/
theorem claim_C6_lru_spec (r : LRUReplacer) (c : Nat) (fs : List Nat)
    (hnd : fs.Nodup) (hval : ∀ f ∈ fs, f < c) :
    (r.victim.1 = none ↔ r.lru_list = []) ∧
    r.victim.1 = r.lru_list.getLast? ∧
    r.victim.2.lru_list = r.lru_list.dropLast ∧
    drainList (fs.foldl LRUReplacer.unpin ⟨[], c⟩) fs.length = fs.map some := by
  refine ⟨?_, LRUReplacer.victim_fst r, ?_, ?_⟩
  · rw [LRUReplacer.victim_fst r]
    rcases List.eq_nil_or_concat r.lru_list with h | ⟨as, a, h⟩ <;> rw [h] <;> simp
  · rw [LRUReplacer.victim_snd r]
  · have hlen : fs.length ≤ c := by
      have h1 : fs.toFinset.card = fs.length := List.toFinset_card_of_nodup hnd
      have h2 : fs.toFinset ⊆ Finset.range c := by
        intro x hx
        rw [List.mem_toFinset] at hx
        exact Finset.mem_range.mpr (hval x hx)
      have h3 := Finset.card_le_card h2
      rw [Finset.card_range, h1] at h3
      exact h3
    rw [unpin_foldl fs [] c hnd (by intro g _ hc; simp at hc) (by simpa using hlen)]
    rw [List.append_nil]
    rw [drain_list_eq fs.length fs.reverse c (by simp)]
    simp

theorem claim_C6_lru_spec_witness :
    drainList (([1, 2] : List Nat).foldl LRUReplacer.unpin ⟨[], 3⟩) 2 =
      [some 1, some 2] :=
  (claim_C6_lru_spec ⟨[], 3⟩ 3 [1, 2] (by decide) (by decide)).2.2.2

end BusTub

